import Mathlib

/-!
Verification development for the pyquad repository: adaptive point and region
quadtrees over 2-D data.

The Lean definitions below are a shallow embedding of the Python sources:

* `Geo` embeds `src/pyquad/geometry_objects.py` (`Point`, `BoundingBox`,
  `TiledBoundingBox` and their methods).  `src/point_quadtree.py`'s `BBox`
  class repeats the same field layout and the same `contains`, `mid_point`
  and `split` formulas verbatim, so the point-quadtree part reuses the
  `Geo.BoundingBox` structure; differences (`to_int` exists only in the
  pyquad copy) are noted at each definition.
* `PointQT` embeds `src/point_quadtree.py` (`Node.insert`, `Node.divide`).
* `RegionQT` embeds `src/pyquad/region_quadtree.py` (`RegionNode`,
  `RegionQuadTree.__build`).

Numeric conventions: Python ints/floats used for coordinates and samples are
modelled by `ℚ`.  Every coordinate manipulated by the algorithms stays
rational (the only operations are `+`, `/ 2` and `int` truncation), so this
is exact.  Python's `int()` truncates toward zero; every coordinate a tree
produces is ≥ 0 (boxes are derived from `(0, cols, 0, rows)` by halving and
truncation), where truncation agrees with `⌊·⌋`, which is how `to_int` is
modelled.  The float value `nan` produced by `numpy.std`/`numpy.var` on an
empty slice is modelled by an explicit `RVal.nan` constructor, with the
Python comparison semantics `nan <= t = False`.
-/

namespace Geo

/-- Point of `geometry_objects.py`: x, y and a sample value (default 0). -/
structure Point where
  x : ℚ
  y : ℚ
  value : ℚ := 0
deriving DecidableEq, Repr

/-- BoundingBox of `geometry_objects.py`: left x, right x, top y, bottom y.
The Python field `by` is a Lean keyword and is spelled `by_` here. -/
structure BoundingBox where
  lx : ℚ
  rx : ℚ
  ty : ℚ
  by_ : ℚ
deriving DecidableEq, Repr

/-- The `mid` attribute set in `BoundingBox.__post_init__`:
`self.mid = (self.rx / 2, self.ty / 2)`.  It is a pure function of the
constructor fields, so it is modelled as a derived function.  Note that
`__post_init__` performs no validation whatsoever: the asserts sketched in
the source are inside a TODO string literal and never execute, so any
combination of fields yields a usable box. -/
def BoundingBox.mid (b : BoundingBox) : ℚ × ℚ :=
  (b.rx / 2, b.ty / 2)

/-- Half-open containment test of `BoundingBox.contains`:
`point_x >= lx and point_x < rx and point_y >= by and point_y < ty`. -/
def BoundingBox.contains (b : BoundingBox) (p : Point) : Bool :=
  decide (p.x ≥ b.lx) && decide (p.x < b.rx) && decide (p.y ≥ b.by_) && decide (p.y < b.ty)

/-- Center of the box, from `BoundingBox.mid_point`:
`Point((rx + lx) / 2, (ty + by) / 2)` (the `value` field defaults to 0). -/
def BoundingBox.mid_point (b : BoundingBox) : Point :=
  ⟨(b.rx + b.lx) / 2, (b.ty + b.by_) / 2, 0⟩

/-- TiledBoundingBox namedtuple: the four quadrants of a split. -/
structure TiledBoundingBox where
  nw : BoundingBox
  ne : BoundingBox
  se : BoundingBox
  sw : BoundingBox
deriving DecidableEq, Repr

/-- Quadrant split of `BoundingBox.split`:
nw = (lx, mid.x, ty, mid.y), ne = (mid.x, rx, ty, mid.y),
se = (mid.x, rx, mid.y, by), sw = (lx, mid.x, mid.y, by),
where mid = `mid_point()`. -/
def BoundingBox.split (b : BoundingBox) : TiledBoundingBox :=
  let mid := b.mid_point
  ⟨⟨b.lx, mid.x, b.ty, mid.y⟩,
   ⟨mid.x, b.rx, b.ty, mid.y⟩,
   ⟨mid.x, b.rx, mid.y, b.by_⟩,
   ⟨b.lx, mid.x, mid.y, b.by_⟩⟩

/-- Python `int()` on the rationals that occur in this development.  `int()`
truncates toward zero; every coordinate fed to it by the region tree is
nonnegative (derived from `(0, cols, 0, rows)` by halving), where truncation
coincides with the floor used here. -/
def pyInt (q : ℚ) : ℤ :=
  ⌊q⌋

/-- Integer coordinate cast of `BoundingBox.to_int` (pyquad copy only):
all four fields truncated by `int()`.  The Python method mutates in place
and returns `self`; the model returns the updated box. -/
def BoundingBox.to_int (b : BoundingBox) : BoundingBox :=
  ⟨(pyInt b.lx : ℚ), (pyInt b.rx : ℚ), (pyInt b.ty : ℚ), (pyInt b.by_ : ℚ)⟩

end Geo

namespace Geo

/-- Unfolded propositional form of the half-open containment test. -/
theorem contains_iff (b : BoundingBox) (p : Point) :
    b.contains p = true ↔ (b.lx ≤ p.x ∧ p.x < b.rx ∧ b.by_ ≤ p.y ∧ p.y < b.ty) := by
  simp [BoundingBox.contains, ge_iff_le, and_assoc]

/-- Abbreviation for the x coordinate of `mid_point`. -/
def mxB (b : BoundingBox) : ℚ := (b.rx + b.lx) / 2

/-- Abbreviation for the y coordinate of `mid_point`. -/
def myB (b : BoundingBox) : ℚ := (b.ty + b.by_) / 2

theorem split_nw_def (b : BoundingBox) : b.split.nw = ⟨b.lx, mxB b, b.ty, myB b⟩ := rfl

theorem split_ne_def (b : BoundingBox) : b.split.ne = ⟨mxB b, b.rx, b.ty, myB b⟩ := rfl

theorem split_se_def (b : BoundingBox) : b.split.se = ⟨mxB b, b.rx, myB b, b.by_⟩ := rfl

theorem split_sw_def (b : BoundingBox) : b.split.sw = ⟨b.lx, mxB b, myB b, b.by_⟩ := rfl

/-- A point inside the parent lies in the NW quadrant iff it is left of and
not below the midpoint. -/
theorem nw_contains_iff (b : BoundingBox) (p : Point) (hb : b.contains p = true) :
    b.split.nw.contains p = true ↔ (p.x < mxB b ∧ ¬ p.y < myB b) := by
  rw [contains_iff] at hb
  rw [split_nw_def, contains_iff]
  dsimp only
  constructor
  · rintro ⟨_, h2, h3, _⟩
    exact ⟨h2, not_lt.mpr h3⟩
  · rintro ⟨h1, h2⟩
    exact ⟨hb.1, h1, not_lt.mp h2, hb.2.2.2⟩

/-- A point inside the parent lies in the NE quadrant iff it is not left of
and not below the midpoint. -/
theorem ne_contains_iff (b : BoundingBox) (p : Point) (hb : b.contains p = true) :
    b.split.ne.contains p = true ↔ (¬ p.x < mxB b ∧ ¬ p.y < myB b) := by
  rw [contains_iff] at hb
  rw [split_ne_def, contains_iff]
  dsimp only
  constructor
  · rintro ⟨h1, _, h3, _⟩
    exact ⟨not_lt.mpr h1, not_lt.mpr h3⟩
  · rintro ⟨h1, h2⟩
    exact ⟨not_lt.mp h1, hb.2.1, not_lt.mp h2, hb.2.2.2⟩

/-- A point inside the parent lies in the SE quadrant iff it is not left of
and below the midpoint. -/
theorem se_contains_iff (b : BoundingBox) (p : Point) (hb : b.contains p = true) :
    b.split.se.contains p = true ↔ (¬ p.x < mxB b ∧ p.y < myB b) := by
  rw [contains_iff] at hb
  rw [split_se_def, contains_iff]
  dsimp only
  constructor
  · rintro ⟨h1, _, _, h4⟩
    exact ⟨not_lt.mpr h1, h4⟩
  · rintro ⟨h1, h2⟩
    exact ⟨not_lt.mp h1, hb.2.1, hb.2.2.1, h2⟩

/-- A point inside the parent lies in the SW quadrant iff it is left of and
below the midpoint. -/
theorem sw_contains_iff (b : BoundingBox) (p : Point) (hb : b.contains p = true) :
    b.split.sw.contains p = true ↔ (p.x < mxB b ∧ p.y < myB b) := by
  rw [contains_iff] at hb
  rw [split_sw_def, contains_iff]
  dsimp only
  constructor
  · rintro ⟨_, h2, _, h4⟩
    exact ⟨h2, h4⟩
  · rintro ⟨h1, h2⟩
    exact ⟨hb.1, h1, hb.2.2.1, h2⟩

/-- Containment in any quadrant of a split implies containment in the parent
(no hypotheses needed: quadrant containment itself forces the box to be
nondegenerate). -/
theorem contains_of_child_contains (b : BoundingBox) (p : Point)
    (h : b.split.nw.contains p = true ∨ b.split.ne.contains p = true ∨
         b.split.se.contains p = true ∨ b.split.sw.contains p = true) :
    b.contains p = true := by
  rw [contains_iff]
  rcases h with h | h | h | h
  · rw [split_nw_def, contains_iff] at h
    obtain ⟨h1, h2, h3, h4⟩ := h
    dsimp only at *
    have hlr : b.lx < b.rx := by
      have : b.lx < mxB b := lt_of_le_of_lt h1 h2
      unfold mxB at this
      linarith
    have : mxB b ≤ b.rx := by unfold mxB; linarith
    exact ⟨h1, lt_of_lt_of_le h2 this, by
      have hbt : b.by_ < b.ty := by
        have : myB b < b.ty := lt_of_le_of_lt h3 h4
        unfold myB at this
        linarith
      have : b.by_ ≤ myB b := by unfold myB; linarith
      exact le_trans this h3, h4⟩
  · rw [split_ne_def, contains_iff] at h
    obtain ⟨h1, h2, h3, h4⟩ := h
    dsimp only at *
    have hlr : b.lx < b.rx := by
      have : mxB b < b.rx := lt_of_le_of_lt h1 h2
      unfold mxB at this
      linarith
    have hxl : b.lx ≤ mxB b := by unfold mxB; linarith
    have hbt : b.by_ < b.ty := by
      have : myB b < b.ty := lt_of_le_of_lt h3 h4
      unfold myB at this
      linarith
    have hyb : b.by_ ≤ myB b := by unfold myB; linarith
    exact ⟨le_trans hxl h1, h2, le_trans hyb h3, h4⟩
  · rw [split_se_def, contains_iff] at h
    obtain ⟨h1, h2, h3, h4⟩ := h
    dsimp only at *
    have hlr : b.lx < b.rx := by
      have : mxB b < b.rx := lt_of_le_of_lt h1 h2
      unfold mxB at this
      linarith
    have hxl : b.lx ≤ mxB b := by unfold mxB; linarith
    have hbt : b.by_ < b.ty := by
      have : b.by_ < myB b := lt_of_le_of_lt h3 h4
      unfold myB at this
      linarith
    have hyt : myB b ≤ b.ty := by unfold myB; linarith
    exact ⟨le_trans hxl h1, h2, h3, lt_of_lt_of_le h4 hyt⟩
  · rw [split_sw_def, contains_iff] at h
    obtain ⟨h1, h2, h3, h4⟩ := h
    dsimp only at *
    have hlr : b.lx < b.rx := by
      have : b.lx < mxB b := lt_of_le_of_lt h1 h2
      unfold mxB at this
      linarith
    have hxr : mxB b ≤ b.rx := by unfold mxB; linarith
    have hbt : b.by_ < b.ty := by
      have : b.by_ < myB b := lt_of_le_of_lt h3 h4
      unfold myB at this
      linarith
    have hyt : myB b ≤ b.ty := by unfold myB; linarith
    exact ⟨h1, lt_of_lt_of_le h2 hxr, h3, lt_of_lt_of_le h4 hyt⟩

/-- Exact quadrant partition, counting form: the number of quadrants of
`b.split()` containing a point is 1 inside `b` and 0 outside. -/
theorem split_countP (b : BoundingBox) (p : Point) :
    ([b.split.nw, b.split.ne, b.split.se, b.split.sw].countP
      (fun c => c.contains p)) = if b.contains p then 1 else 0 := by
  by_cases hb : b.contains p = true
  · have hnw := nw_contains_iff b p hb
    have hne := ne_contains_iff b p hb
    have hse := se_contains_iff b p hb
    have hsw := sw_contains_iff b p hb
    rw [if_pos hb]
    simp only [List.countP_cons, List.countP_nil]
    by_cases hx : p.x < mxB b <;> by_cases hy : p.y < myB b <;>
      simp [hnw, hne, hse, hsw, hx, hy]
  · have hnw : ¬ b.split.nw.contains p = true :=
      fun h => hb (contains_of_child_contains b p (Or.inl h))
    have hne : ¬ b.split.ne.contains p = true :=
      fun h => hb (contains_of_child_contains b p (Or.inr (Or.inl h)))
    have hse : ¬ b.split.se.contains p = true :=
      fun h => hb (contains_of_child_contains b p (Or.inr (Or.inr (Or.inl h))))
    have hsw : ¬ b.split.sw.contains p = true :=
      fun h => hb (contains_of_child_contains b p (Or.inr (Or.inr (Or.inr h))))
    simp [hb, hnw, hne, hse, hsw]

end Geo

/-- C3: for every BoundingBox `b` with `lx < rx` and `by < ty` and every
point `p`, `b.contains(p)` holds iff exactly one of the four boxes returned
by `b.split()` contains `p`: the quadrant partition is exact, with no gaps
and no double coverage, under the half-open containment test. -/
theorem C3_split_partition_exact (b : Geo.BoundingBox) (p : Geo.Point)
    (hx : b.lx < b.rx) (hy : b.by_ < b.ty) :
    ([b.split.nw, b.split.ne, b.split.se, b.split.sw].countP
      (fun c => c.contains p)) = if b.contains p then 1 else 0 :=
  Geo.split_countP b p

/-- Witness for C3 at the box (0, 4, 4, 0) and the point (1, 1). -/
theorem C3_split_partition_exact_witness :
    ([(Geo.BoundingBox.mk 0 4 4 0).split.nw, (Geo.BoundingBox.mk 0 4 4 0).split.ne,
      (Geo.BoundingBox.mk 0 4 4 0).split.se, (Geo.BoundingBox.mk 0 4 4 0).split.sw].countP
      (fun c => c.contains ⟨1, 1, 0⟩))
      = if (Geo.BoundingBox.mk 0 4 4 0).contains ⟨1, 1, 0⟩ then 1 else 0 :=
  C3_split_partition_exact ⟨0, 4, 4, 0⟩ ⟨1, 1, 0⟩ (by norm_num) (by norm_num)

/-- C8 counterexample: for the box (lx, rx, ty, by) = (1, 3, 5, 1) the `mid`
attribute is (3/2, 5/2), not the center ((1+3)/2, (5+1)/2) = (2, 3). -/
theorem C8_mid_counterexample :
    Geo.BoundingBox.mid ⟨1, 3, 5, 1⟩ ≠ (((1 : ℚ) + 3) / 2, ((5 : ℚ) + 1) / 2) := by
  unfold Geo.BoundingBox.mid
  intro h
  have := congrArg Prod.fst h
  norm_num at this

/-- C8 amended: the `mid` attribute established at construction equals
(rx/2, ty/2); it coincides with the box center ((lx+rx)/2, (ty+by)/2) iff
lx = 0 and by = 0 (as for boxes derived from grid dimensions).  The center
itself is returned by the separate `mid_point()` method. -/
theorem C8_mid_amended (b : Geo.BoundingBox) :
    (b.mid = ((b.lx + b.rx) / 2, (b.ty + b.by_) / 2) ↔ (b.lx = 0 ∧ b.by_ = 0)) ∧
    b.mid_point = ⟨(b.rx + b.lx) / 2, (b.ty + b.by_) / 2, 0⟩ := by
  refine ⟨?_, rfl⟩
  unfold Geo.BoundingBox.mid
  rw [Prod.ext_iff]
  dsimp only
  constructor
  · rintro ⟨h1, h2⟩
    exact ⟨by linarith, by linarith⟩
  · rintro ⟨h1, h2⟩
    rw [h1, h2]
    constructor <;> ring

/-- C9: constructing a malformed BoundingBox (here lx = 4 ≥ rx = 0 and
ty = 0 ≤ by = 4) is not rejected: `__post_init__` performs no check (the
asserts in the source sit inside a TODO string literal), and the resulting
box is silently usable: its fields are stored as given and `split()`
produces four quadrant boxes around the midpoint (2, 2). -/
theorem C9_no_construction_validation :
    (Geo.BoundingBox.mk 4 0 0 4).rx ≤ (Geo.BoundingBox.mk 4 0 0 4).lx ∧
    (Geo.BoundingBox.mk 4 0 0 4).ty ≤ (Geo.BoundingBox.mk 4 0 0 4).by_ ∧
    (Geo.BoundingBox.mk 4 0 0 4).mid = (0, 0) ∧
    (Geo.BoundingBox.mk 4 0 0 4).split =
      ⟨⟨4, 2, 0, 2⟩, ⟨2, 0, 0, 2⟩, ⟨2, 0, 2, 4⟩, ⟨4, 2, 2, 4⟩⟩ := by
  refine ⟨by norm_num, by norm_num, ?_, ?_⟩
  · unfold Geo.BoundingBox.mid
    norm_num
  · unfold Geo.BoundingBox.split Geo.BoundingBox.mid_point
    simp only [Geo.TiledBoundingBox.mk.injEq, Geo.BoundingBox.mk.injEq]
    norm_num

namespace PointQT

/-- Point of `point_quadtree.py`: unlike the pyquad copy, `value` defaults to
`None`, modelled by `Option ℚ`. -/
structure Point where
  x : ℚ
  y : ℚ
  value : Option ℚ := none
deriving DecidableEq, Repr

/-- Coordinate view of a point-quadtree point, used where the bounding-box
methods (which read only x and y) are applied to it. -/
def Point.xy (p : Point) : Geo.Point :=
  ⟨p.x, p.y, 0⟩

/-- Value selection in the variance call of `Node.insert`:
`pnt.value if pnt.value != None else 0`. -/
def valueOrZero (p : Point) : ℚ :=
  p.value.getD 0

/-- Sample variance of `statistics.variance`: sum of squared deviations from
the mean divided by n - 1.  The source only ever calls it with at least two
samples (`statistics.variance` raises on fewer); on shorter lists this model
returns 0 by rational division by zero, a case the algorithm never reaches. -/
def sampleVariance (xs : List ℚ) : ℚ :=
  let n : ℚ := xs.length
  let m := xs.sum / n
  ((xs.map (fun x => (x - m) ^ 2)).sum) / (n - 1)

/-- Tree of `point_quadtree.Node`.  A node is either undivided
(`_divided = False`, no children) or divided with exactly four children nw,
ne, se, sw, always created together by `divide`.  The `bounding_box`,
`depth` and `points` attributes are carried by both shapes.  The `children`
counter and `variance` attribute of the class are initialised and never
meaningfully used, and the `maxdepth` constructor parameter is never stored;
none of them is modelled. -/
inductive Node where
  | leaf (bbox : Geo.BoundingBox) (depth : ℕ) (points : List Point)
  | node (bbox : Geo.BoundingBox) (depth : ℕ) (points : List Point)
      (nw ne se sw : Node)
deriving DecidableEq, Repr

/-- Bounding box attribute of a node. -/
def Node.bbox : Node → Geo.BoundingBox
  | .leaf b _ _ => b
  | .node b _ _ _ _ _ _ => b

/-- Depth attribute of a node. -/
def Node.depth : Node → ℕ
  | .leaf _ d _ => d
  | .node _ d _ _ _ _ _ => d

/-- Point list of a node. -/
def Node.points : Node → List Point
  | .leaf _ _ pts => pts
  | .node _ _ pts _ _ _ _ => pts

/-- The `_divided` flag: true exactly when the node has children. -/
def Node.divided : Node → Bool
  | .leaf _ _ _ => false
  | .node _ _ _ _ _ _ _ => true

/-- Largest depth of any node reachable from this node. -/
def Node.maxDepth : Node → ℕ
  | .leaf _ d _ => d
  | .node _ d _ nw ne se sw =>
      ((((d.max nw.maxDepth).max ne.maxDepth).max se.maxDepth).max sw.maxDepth)

/-- Behaviour of `Node.insert` on a freshly created empty child: the
containment test either rejects the point (child stays an empty leaf) or the
point is appended as the only element (one point is fewer than 2, so the
child reports success without subdividing).  Lemma `insert_on_fresh_leaf`
below proves this equal to `Node.insert` on the empty leaf. -/
def insertNew (b : Geo.BoundingBox) (d : ℕ) (p : Point) : Bool × Node :=
  if b.contains p.xy then (true, .leaf b d [p]) else (false, .leaf b d [])

/-- The short-circuiting routing chain
`self.ne.insert(point) or self.nw.insert(point) or self.se.insert(point) or
self.sw.insert(point)`: children are tried in NE, NW, SE, SW order; once one
accepts, the later children are not attempted and keep their previous state,
while every attempted child keeps the state its call produced.  Arguments:
the four current children (in constructor order nw, ne, se, sw) and the four
attempted results (in attempt order ne, nw, se, sw); the result is the
boolean of the chain and the four updated children in constructor order. -/
def routeChain (nw0 ne0 se0 sw0 : Node) (rne rnw rse rsw : Bool × Node) :
    Bool × Node × Node × Node × Node :=
  if rne.1 then (true, nw0, rne.2, se0, sw0)
  else if rnw.1 then (true, rnw.2, rne.2, se0, sw0)
  else if rse.1 then (true, rnw.2, rne.2, rse.2, sw0)
  else (rsw.1, rnw.2, rne.2, rse.2, rsw.2)

/-- Insertion of `Node.insert`, state-passing form (the Python method
mutates the node and returns a bool; the model returns the bool together
with the updated node):

* if the bounding box does not contain the point, return False unchanged;
* append the point; if the node now holds fewer than 2 points, return True;
* otherwise the source computes `var = variance(...)` and, when
  `var > 0.08 and self.depth < 5`, fills four local lists p_ne, p_nw, p_sw,
  p_se that are never read again — dead stores with no effect on state or
  result, recorded here by the unused `_var` binding;
* then, unconditionally, the node divides if it is not yet divided
  (`divide` splits the box and creates four empty children at depth + 1) and
  the point is routed through the NE-NW-SE-SW chain. -/
def Node.insert : Node → Point → Bool × Node
  | .leaf b d pts, p =>
      if b.contains p.xy then
        let pts' := pts ++ [p]
        if pts'.length < 2 then (true, .leaf b d pts')
        else
          let _var := sampleVariance (pts'.map valueOrZero)
          let tiles := b.split
          let r := routeChain
            (.leaf tiles.nw (d+1) []) (.leaf tiles.ne (d+1) [])
            (.leaf tiles.se (d+1) []) (.leaf tiles.sw (d+1) [])
            (insertNew tiles.ne (d+1) p) (insertNew tiles.nw (d+1) p)
            (insertNew tiles.se (d+1) p) (insertNew tiles.sw (d+1) p)
          (r.1, .node b d pts' r.2.1 r.2.2.1 r.2.2.2.1 r.2.2.2.2)
      else (false, .leaf b d pts)
  | .node b d pts nw ne se sw, p =>
      if b.contains p.xy then
        let pts' := pts ++ [p]
        if pts'.length < 2 then (true, .node b d pts' nw ne se sw)
        else
          let _var := sampleVariance (pts'.map valueOrZero)
          let r := routeChain nw ne se sw
            (ne.insert p) (nw.insert p) (se.insert p) (sw.insert p)
          (r.1, .node b d pts' r.2.1 r.2.2.1 r.2.2.2.1 r.2.2.2.2)
      else (false, .node b d pts nw ne se sw)

/-- Iterated insertion of the same point, for concrete runs. -/
def insertTimes : ℕ → Node → Point → Node
  | 0, n, _ => n
  | k+1, n, p => insertTimes k (n.insert p).2 p

/-- Specialisation check: on a freshly created empty leaf, `Node.insert`
agrees with `insertNew`. -/
theorem insert_on_fresh_leaf (b : Geo.BoundingBox) (d : ℕ) (p : Point) :
    (Node.leaf b d []).insert p = insertNew b d p := by
  unfold Node.insert insertNew
  by_cases h : b.contains p.xy = true <;> simp [h]

end PointQT

namespace PointQT

/-- Insertion of an out-of-bounds point fails and leaves the node
untouched (first branch of `Node.insert`). -/
theorem insert_not_contains (n : Node) (p : Point)
    (h : n.bbox.contains p.xy = false) : n.insert p = (false, n) := by
  cases n <;> simp [Node.insert, Node.bbox] at h ⊢ <;> simp [h]

/-- Insertion never changes the bounding box of the node it is applied to. -/
theorem insert_bbox (n : Node) (p : Point) : (n.insert p).2.bbox = n.bbox := by
  cases n <;> unfold Node.insert <;> dsimp only
  · split
    · split
      · rfl
      · rfl
    · rfl
  · split
    · split
      · rfl
      · rfl
    · rfl

/-- Well-formed trees: every divided node's children carry exactly the four
quadrant boxes of its own split.  All trees produced by construction and
insertion satisfy this (`reachable_wf`). -/
def wf : Node → Prop
  | .leaf _ _ _ => True
  | .node b _ _ nw ne se sw =>
      nw.bbox = b.split.nw ∧ ne.bbox = b.split.ne ∧ se.bbox = b.split.se ∧
      sw.bbox = b.split.sw ∧ wf nw ∧ wf ne ∧ wf se ∧ wf sw

/-- Fresh children created by `insertNew` keep the requested box. -/
theorem insertNew_bbox (b : Geo.BoundingBox) (d : ℕ) (p : Point) :
    (insertNew b d p).2.bbox = b := by
  unfold insertNew
  split <;> rfl

/-- Fresh children created by `insertNew` are leaves, hence well formed. -/
theorem insertNew_wf (b : Geo.BoundingBox) (d : ℕ) (p : Point) :
    wf (insertNew b d p).2 := by
  unfold insertNew
  split <;> simp [wf]

/-- Each child slot produced by `routeChain` is either the original child or
the corresponding attempted result, so any property holding of both holds of
the slot. -/
theorem routeChain_parts (nw0 ne0 se0 sw0 : Node) (rne rnw rse rsw : Bool × Node)
    (P Q R S : Node → Prop)
    (h1 : P nw0) (h1' : P rnw.2) (h2 : Q ne0) (h2' : Q rne.2)
    (h3 : R se0) (h3' : R rse.2) (h4 : S sw0) (h4' : S rsw.2) :
    P (routeChain nw0 ne0 se0 sw0 rne rnw rse rsw).2.1 ∧
    Q (routeChain nw0 ne0 se0 sw0 rne rnw rse rsw).2.2.1 ∧
    R (routeChain nw0 ne0 se0 sw0 rne rnw rse rsw).2.2.2.1 ∧
    S (routeChain nw0 ne0 se0 sw0 rne rnw rse rsw).2.2.2.2 := by
  by_cases e1 : rne.1 = true
  · simp [routeChain, e1]
    exact ⟨h1, h2', h3, h4⟩
  · by_cases e2 : rnw.1 = true
    · simp [routeChain, e1, e2]
      exact ⟨h1', h2', h3, h4⟩
    · by_cases e3 : rse.1 = true
      · simp [routeChain, e1, e2, e3]
        exact ⟨h1', h2', h3', h4⟩
      · simp [routeChain, e1, e2, e3]
        exact ⟨h1', h2', h3', h4'⟩

/-- Insertion preserves well-formedness. -/
theorem insert_wf (n : Node) (p : Point) (h : wf n) : wf (n.insert p).2 := by
  induction n with
  | leaf b d pts =>
      unfold Node.insert
      dsimp only
      split
      · split
        · simp [wf]
        · have H := routeChain_parts
            (Node.leaf b.split.nw (d+1) []) (Node.leaf b.split.ne (d+1) [])
            (Node.leaf b.split.se (d+1) []) (Node.leaf b.split.sw (d+1) [])
            (insertNew b.split.ne (d+1) p) (insertNew b.split.nw (d+1) p)
            (insertNew b.split.se (d+1) p) (insertNew b.split.sw (d+1) p)
            (fun c => c.bbox = b.split.nw ∧ wf c) (fun c => c.bbox = b.split.ne ∧ wf c)
            (fun c => c.bbox = b.split.se ∧ wf c) (fun c => c.bbox = b.split.sw ∧ wf c)
            ⟨rfl, trivial⟩ ⟨insertNew_bbox .., insertNew_wf ..⟩
            ⟨rfl, trivial⟩ ⟨insertNew_bbox .., insertNew_wf ..⟩
            ⟨rfl, trivial⟩ ⟨insertNew_bbox .., insertNew_wf ..⟩
            ⟨rfl, trivial⟩ ⟨insertNew_bbox .., insertNew_wf ..⟩
          obtain ⟨⟨a1, a2⟩, ⟨c1, c2⟩, ⟨e1, e2⟩, ⟨f1, f2⟩⟩ := H
          exact ⟨a1, c1, e1, f1, a2, c2, e2, f2⟩
      · exact h
  | node b d pts nw ne se sw ihnw ihne ihse ihsw =>
      obtain ⟨h1, h2, h3, h4, w1, w2, w3, w4⟩ := h
      unfold Node.insert
      dsimp only
      split
      · split
        · exact ⟨h1, h2, h3, h4, w1, w2, w3, w4⟩
        · have H := routeChain_parts nw ne se sw
            (ne.insert p) (nw.insert p) (se.insert p) (sw.insert p)
            (fun c => c.bbox = b.split.nw ∧ wf c) (fun c => c.bbox = b.split.ne ∧ wf c)
            (fun c => c.bbox = b.split.se ∧ wf c) (fun c => c.bbox = b.split.sw ∧ wf c)
            ⟨h1, w1⟩ ⟨(insert_bbox nw p).trans h1, ihnw w1⟩
            ⟨h2, w2⟩ ⟨(insert_bbox ne p).trans h2, ihne w2⟩
            ⟨h3, w3⟩ ⟨(insert_bbox se p).trans h3, ihse w3⟩
            ⟨h4, w4⟩ ⟨(insert_bbox sw p).trans h4, ihsw w4⟩
          obtain ⟨⟨a1, a2⟩, ⟨c1, c2⟩, ⟨e1, e2⟩, ⟨f1, f2⟩⟩ := H
          exact ⟨a1, c1, e1, f1, a2, c2, e2, f2⟩
      · exact ⟨h1, h2, h3, h4, w1, w2, w3, w4⟩

end PointQT

namespace PointQT

/-- The boolean returned by `insertNew` is exactly the containment test. -/
theorem insertNew_fst (b : Geo.BoundingBox) (d : ℕ) (p : Point) :
    (insertNew b d p).1 = b.contains p.xy := by
  unfold insertNew
  by_cases h : b.contains p.xy = true <;> simp [h]

/-- The boolean of the routing chain is the disjunction of the four
attempted booleans. -/
theorem routeChain_fst (nw0 ne0 se0 sw0 : Node) (rne rnw rse rsw : Bool × Node) :
    (routeChain nw0 ne0 se0 sw0 rne rnw rse rsw).1 = (rne.1 || rnw.1 || rse.1 || rsw.1) := by
  by_cases e1 : rne.1 = true
  · simp [routeChain, e1]
  · by_cases e2 : rnw.1 = true
    · simp [routeChain, e1, e2]
    · by_cases e3 : rse.1 = true <;> simp [routeChain, e1, e2, e3]

/-- A point inside a box lies inside at least one quadrant of its split. -/
theorem one_child_contains (b : Geo.BoundingBox) (p : Geo.Point)
    (hb : b.contains p = true) :
    b.split.nw.contains p = true ∨ b.split.ne.contains p = true ∨
    b.split.se.contains p = true ∨ b.split.sw.contains p = true := by
  by_cases hx : p.x < Geo.mxB b <;> by_cases hy : p.y < Geo.myB b
  · exact Or.inr (Or.inr (Or.inr ((Geo.sw_contains_iff b p hb).mpr ⟨hx, hy⟩)))
  · exact Or.inl ((Geo.nw_contains_iff b p hb).mpr ⟨hx, hy⟩)
  · exact Or.inr (Or.inr (Or.inl ((Geo.se_contains_iff b p hb).mpr ⟨hx, hy⟩)))
  · exact Or.inr (Or.inl ((Geo.ne_contains_iff b p hb).mpr ⟨hx, hy⟩))

/-- On a well-formed node, insertion of a contained point succeeds. -/
theorem insert_fst_of_contains (n : Node) (p : Point) (h : wf n)
    (hc : n.bbox.contains p.xy = true) : (n.insert p).1 = true := by
  induction n with
  | leaf b d pts =>
      have hc' : b.contains p.xy = true := hc
      unfold Node.insert
      dsimp only
      rw [if_pos hc']
      split
      · rfl
      · rw [routeChain_fst]
        simp only [insertNew_fst, Bool.or_eq_true]
        rcases one_child_contains b p.xy hc' with hq | hq | hq | hq
        · exact Or.inl (Or.inl (Or.inr hq))
        · exact Or.inl (Or.inl (Or.inl hq))
        · exact Or.inl (Or.inr hq)
        · exact Or.inr hq
  | node b d pts nw ne se sw ihnw ihne ihse ihsw =>
      obtain ⟨h1, h2, h3, h4, w1, w2, w3, w4⟩ := h
      have hc' : b.contains p.xy = true := hc
      unfold Node.insert
      dsimp only
      rw [if_pos hc']
      split
      · rfl
      · rw [routeChain_fst]
        simp only [Bool.or_eq_true]
        rcases one_child_contains b p.xy hc' with hq | hq | hq | hq
        · exact Or.inl (Or.inl (Or.inr (ihnw w1 (h1 ▸ hq))))
        · exact Or.inl (Or.inl (Or.inl (ihne w2 (h2 ▸ hq))))
        · exact Or.inl (Or.inr (ihse w3 (h3 ▸ hq)))
        · exact Or.inr (ihsw w4 (h4 ▸ hq))

/-- Reachable point-quadtree states: a freshly constructed single-node tree
over a valid root box (depth 0, empty point list, undivided), or the result
of any insertion on a reachable state. -/
inductive Reachable : Node → Prop
  | root (b : Geo.BoundingBox) (hx : b.lx < b.rx) (hy : b.by_ < b.ty) :
      Reachable (.leaf b 0 [])
  | step (n : Node) (p : Point) : Reachable n → Reachable (n.insert p).2

/-- Reachable states are well formed. -/
theorem reachable_wf (n : Node) (h : Reachable n) : wf n := by
  induction h with
  | root b hx hy => trivial
  | step m p _ ih => exact insert_wf m p ih

end PointQT

/-- C10: on every reachable point-quadtree state, `insert(p)` returns true
iff the node's bounding box contains `p` under the half-open test; the
out-of-bounds rejection is the only way insert returns false.  (Termination
is definitional: `Node.insert` is a total structurally recursive function,
mirroring the source recursion along the finite tree plus at most one fresh
level of children.) -/
theorem C10_insert_true_iff_contains (n : PointQT.Node) (p : PointQT.Point)
    (h : PointQT.Reachable n) :
    (n.insert p).1 = true ↔ n.bbox.contains p.xy = true := by
  constructor
  · intro htrue
    by_contra hc
    have hfalse : n.bbox.contains p.xy = false := by
      cases hcc : n.bbox.contains p.xy
      · rfl
      · exact absurd hcc hc
    rw [PointQT.insert_not_contains n p hfalse] at htrue
    exact Bool.false_ne_true htrue
  · exact PointQT.insert_fst_of_contains n p (PointQT.reachable_wf n h)

/-- Witness for C10: inserting the point (1, 1) into a fresh tree over the
root box (0, 4, 4, 0) returns true. -/
theorem C10_insert_true_iff_contains_witness :
    ((PointQT.Node.leaf ⟨0, 4, 4, 0⟩ 0 []).insert ⟨1, 1, none⟩).1 = true :=
  (C10_insert_true_iff_contains (PointQT.Node.leaf ⟨0, 4, 4, 0⟩ 0 []) ⟨1, 1, none⟩
    (PointQT.Reachable.root ⟨0, 4, 4, 0⟩ (by norm_num) (by norm_num))).mpr
    (by simp [PointQT.Node.bbox, Geo.BoundingBox.contains, PointQT.Point.xy])

/-- C4: insertion of a point outside a node's bounding box returns false and
leaves the entire tree state unmodified: no point list grows and no child is
created.  Consequently insert returns true only for contained points. -/
theorem C4_insert_out_of_bounds_unchanged (n : PointQT.Node) (p : PointQT.Point)
    (h : n.bbox.contains p.xy = false) : n.insert p = (false, n) :=
  PointQT.insert_not_contains n p h

/-- Witness for C4: the point (9, 9) lies outside the root box (0, 4, 4, 0)
and is rejected without modification. -/
theorem C4_insert_out_of_bounds_unchanged_witness :
    (PointQT.Node.leaf ⟨0, 4, 4, 0⟩ 0 []).insert ⟨9, 9, none⟩
      = (false, PointQT.Node.leaf ⟨0, 4, 4, 0⟩ 0 []) :=
  C4_insert_out_of_bounds_unchanged (PointQT.Node.leaf ⟨0, 4, 4, 0⟩ 0 []) ⟨9, 9, none⟩
    (by simp [PointQT.Node.bbox, Geo.BoundingBox.contains, PointQT.Point.xy]; norm_num)

/-- C1 (code bug): after two insertions of the same point with value 0 into
a fresh tree over the box (0, 4, 4, 0), the root node holds 2 points whose
value variance is 0, which does not exceed the threshold 0.08 — yet the node
has subdivided.  In the source, the test `var > 0.08 and self.depth < 5`
guards only the four dead quadrant lists; `divide()` and the routing run
unconditionally whenever the node holds at least 2 points. -/
theorem C1_divide_ignores_dispersion_gate :
    (((PointQT.Node.leaf ⟨0, 4, 4, 0⟩ 0 []).insert ⟨1, 1, some 0⟩).2.insert
        ⟨1, 1, some 0⟩).2.divided = true ∧
    PointQT.sampleVariance ((((PointQT.Node.leaf ⟨0, 4, 4, 0⟩ 0 []).insert
        ⟨1, 1, some 0⟩).2.insert ⟨1, 1, some 0⟩).2.points.map PointQT.valueOrZero) = 0 ∧
    ¬ ((0 : ℚ) > 8/100) := by
  refine ⟨?_, ?_, by norm_num⟩ <;>
    norm_num [PointQT.Node.insert, PointQT.insertNew, PointQT.routeChain,
      Geo.BoundingBox.contains, Geo.BoundingBox.split, Geo.BoundingBox.mid_point,
      PointQT.Point.xy, PointQT.Node.divided, PointQT.Node.points,
      PointQT.sampleVariance, PointQT.valueOrZero]

/-- C2 (code bug): seven insertions of the same point into a fresh tree over
the box (0, 4, 4, 0) produce a node at depth 6, exceeding the depth limit 5
hardcoded in `Node.insert` (the `self.depth < 5` test guards only dead code,
so subdivision keeps creating deeper children). -/
theorem C2_depth_bound_exceeded :
    5 < (PointQT.insertTimes 7 (PointQT.Node.leaf ⟨0, 4, 4, 0⟩ 0 [])
      ⟨1, 1, some 0⟩).maxDepth := by
  norm_num [PointQT.insertTimes, PointQT.Node.insert, PointQT.insertNew,
    PointQT.routeChain, Geo.BoundingBox.contains, Geo.BoundingBox.split,
    Geo.BoundingBox.mid_point, PointQT.Point.xy, PointQT.Node.maxDepth,
    PointQT.sampleVariance, PointQT.valueOrZero]

namespace RegionQT

/-- Result of a numpy dispersion statistic as used in the stop test: either
a rational value or the float nan (what `numpy.std`/`numpy.var` return on an
empty sample array). -/
inductive RVal where
  | nan
  | val (q : ℚ)
deriving DecidableEq, Repr

/-- Python float comparison `criteria <= thresh`: any comparison against
nan is False. -/
def RVal.leR : RVal → ℚ → Bool
  | .nan, _ => false
  | .val q, t => decide (q ≤ t)

/-- Dense 2-D grid of samples, row major, as sliced by numpy; assumed
rectangular as every numpy array is. -/
abbrev Grid := List (List ℚ)

/-- Population variance in the numpy style (`numpy.var`): mean squared
deviation from the mean, and nan on an empty sample list.  Used as the
pluggable `split_func` where the claims fix the variance statistic. -/
def popVariance (xs : List ℚ) : RVal :=
  if xs.length = 0 then .nan
  else
    let n : ℚ := xs.length
    let m := xs.sum / n
    .val (((xs.map (fun x => (x - m) ^ 2)).sum) / n)

/-- Number of grid rows, the first component of `array.shape`. -/
def gridRows (g : Grid) : ℕ := g.length

/-- Number of grid columns, the second component of `array.shape`. -/
def gridCols (g : Grid) : ℕ := (g.headD []).length

/-- Root box of `BoundingBox.from_numpy`: from shape (i, j) the box
`[lx, rx, ty, by] = [0, j, 0, i]`, so the box top corresponds to row 0. -/
def from_numpy (g : Grid) : Geo.BoundingBox :=
  ⟨0, (gridCols g : ℚ), 0, (gridRows g : ℚ)⟩

/-- Slice index of an integer-valued nonnegative box coordinate. -/
def idx (q : ℚ) : ℕ := (Geo.pyInt q).toNat

/-- The numpy slice `array[bbox.ty : bbox.by, bbox.lx : bbox.rx]`: rows
`ty` to `by` exclusive, columns `lx` to `rx` exclusive, with the same
clamping-at-the-ends behaviour as Python slicing.  The boxes used for
slicing always carry nonnegative integer coordinates (they come from
`to_int` or `from_numpy`), which `idx` extracts. -/
def sliceGrid (g : Grid) (b : Geo.BoundingBox) : Grid :=
  ((g.drop (idx b.ty)).take (idx b.by_ - idx b.ty)).map
    (fun row => (row.drop (idx b.lx)).take (idx b.rx - idx b.lx))

/-- Final state of a `RegionNode` after construction: bounding box, depth,
dispersion value (`split_criteria`), leaf flag, retained data block
(cleared by `split`), and the optional four children (nw, ne, se, sw).
The `_divided` flag is true exactly when children are present; the unused
`children` counter and `val` alias of the class are not modelled. -/
inductive RNode where
  | mk (bbox : Geo.BoundingBox) (depth : ℕ) (criteria : RVal) (leaf : Bool)
      (data : Option Grid) (children : Option (RNode × RNode × RNode × RNode))

/-- Bounding box attribute. -/
def RNode.bbox : RNode → Geo.BoundingBox
  | .mk b _ _ _ _ _ => b

/-- Depth attribute. -/
def RNode.depth : RNode → ℕ
  | .mk _ d _ _ _ _ => d

/-- Dispersion attribute `split_criteria`. -/
def RNode.criteria : RNode → RVal
  | .mk _ _ c _ _ _ => c

/-- Leaf flag. -/
def RNode.leaf : RNode → Bool
  | .mk _ _ _ l _ _ => l

/-- Retained data block. -/
def RNode.data : RNode → Option Grid
  | .mk _ _ _ _ dt _ => dt

/-- Children, present exactly when the node has divided. -/
def RNode.children : RNode → Option (RNode × RNode × RNode × RNode)
  | .mk _ _ _ _ _ cs => cs

/-- NW child of a divided node (the node itself when undivided); total
navigation helper for stating concrete facts. -/
def RNode.nwChild : RNode → RNode
  | .mk _ _ _ _ _ (some (a, _, _, _)) => a
  | n => n

/-- NE child of a divided node (the node itself when undivided). -/
def RNode.neChild : RNode → RNode
  | .mk _ _ _ _ _ (some (_, a, _, _)) => a
  | n => n

/-- SE child of a divided node (the node itself when undivided). -/
def RNode.seChild : RNode → RNode
  | .mk _ _ _ _ _ (some (_, _, a, _)) => a
  | n => n

/-- SW child of a divided node (the node itself when undivided). -/
def RNode.swChild : RNode → RNode
  | .mk _ _ _ _ _ (some (_, _, _, a)) => a
  | n => n

/-- A `RegionNode` as `__init__` leaves it: `split_criteria` is
`split_func(array.flatten())` over the node's own block, the node is an
undivided leaf holding its block.  The `try/except ZeroDivisionError`
around the statistic never fires for the numpy statistics modelled here
(they return nan on empty input instead of raising), so the `None` path is
not modelled. -/
def initNode (f : List ℚ → RVal) (block : Grid) (bbox : Geo.BoundingBox) (depth : ℕ) : RNode :=
  .mk bbox depth (f block.flatten) true (some block) none

/-- The four children `RegionNode.split` creates: the quadrant boxes of the
node's box, truncated in place by `to_int`, each child holding the slice of
the full array addressed by its own (absolute) integer box, at depth + 1,
with the same `split_func`. -/
def splitChildren (f : List ℚ → RVal) (arr : Grid) (b : Geo.BoundingBox) (depth : ℕ) :
    RNode × RNode × RNode × RNode :=
  let t := b.split
  (initNode f (sliceGrid arr t.nw.to_int) t.nw.to_int (depth + 1),
   initNode f (sliceGrid arr t.ne.to_int) t.ne.to_int (depth + 1),
   initNode f (sliceGrid arr t.se.to_int) t.se.to_int (depth + 1),
   initNode f (sliceGrid arr t.sw.to_int) t.sw.to_int (depth + 1))

/-- Recursive decomposition of `RegionQuadTree.__build` applied to a node
with the given box, depth, criteria and block (as `initNode` computed them),
threaded with the full array:

* the root (depth 0) is always split first ("Ensure root is split"), so
  when the root stops it keeps those pre-split children while being marked
  a leaf, with its block cleared by the split;
* stop when `node.depth >= self.max_depth` or
  `node.split_criteria <= self.split_thresh` (Python float comparison,
  False when the criteria is nan): mark the node a leaf and return.  The
  source's `if node.depth > self.max_depth` adjustment is unreachable
  (recursion only ever visits nodes at depth ≤ max_depth) and not modelled;
* otherwise split (for the root this recreates the identical pre-split
  children, as in the source where `node.split` runs a second time) and
  recurse into the children in NW, NE, SE, SW order. -/
def buildGo (md : ℕ) (th : ℚ) (f : List ℚ → RVal) (arr : Grid)
    (bbox : Geo.BoundingBox) (depth : ℕ) (crit : RVal) (blockData : Option Grid) : RNode :=
  if h : md ≤ depth ∨ crit.leR th = true then
    RNode.mk bbox depth crit true
      (if depth = 0 then none else blockData)
      (if depth = 0 then some (splitChildren f arr bbox depth) else none)
  else
    let c := splitChildren f arr bbox depth
    RNode.mk bbox depth crit false none
      (some (buildGo md th f arr c.1.bbox (depth+1) c.1.criteria c.1.data,
             buildGo md th f arr c.2.1.bbox (depth+1) c.2.1.criteria c.2.1.data,
             buildGo md th f arr c.2.2.1.bbox (depth+1) c.2.2.1.criteria c.2.2.1.data,
             buildGo md th f arr c.2.2.2.bbox (depth+1) c.2.2.2.criteria c.2.2.2.data))
termination_by md - depth
decreasing_by
  all_goals (rcases not_or.mp h with ⟨h1, h2⟩; have := Nat.lt_of_not_le h1; omega)

/-- Full construction `RegionQuadTree(array, max_depth=md, split_func=f,
split_thresh=th)`: the root `RegionNode` covers `from_numpy`'s box and holds
the whole grid, then `__build` decomposes recursively. -/
def build (arr : Grid) (md : ℕ) (th : ℚ) (f : List ℚ → RVal) : RNode :=
  buildGo md th f arr (from_numpy arr) 0 (f arr.flatten) (some arr)

end RegionQT

namespace RegionQT

/-- Unfolding rule for `buildGo` when the stop test holds: the node is
marked a leaf; the root additionally keeps its unconditional pre-split
children and loses its block. -/
theorem buildGo_stop (md : ℕ) (th : ℚ) (f : List ℚ → RVal) (arr : Grid)
    (bbox : Geo.BoundingBox) (depth : ℕ) (crit : RVal) (blockData : Option Grid)
    (h : (decide (md ≤ depth) || crit.leR th) = true) :
    buildGo md th f arr bbox depth crit blockData =
      RNode.mk bbox depth crit true
        (if depth = 0 then none else blockData)
        (if depth = 0 then some (splitChildren f arr bbox depth) else none) := by
  have h' : md ≤ depth ∨ crit.leR th = true := by
    rcases Bool.or_eq_true_iff.mp h with h1 | h1
    · exact Or.inl (of_decide_eq_true h1)
    · exact Or.inr h1
  rw [buildGo]
  rw [dif_pos h']

/-- Unfolding rule for `buildGo` when the stop test fails: the node splits
and the four children are built recursively. -/
theorem buildGo_rec (md : ℕ) (th : ℚ) (f : List ℚ → RVal) (arr : Grid)
    (bbox : Geo.BoundingBox) (depth : ℕ) (crit : RVal) (blockData : Option Grid)
    (h : (decide (md ≤ depth) || crit.leR th) = false) :
    buildGo md th f arr bbox depth crit blockData =
      RNode.mk bbox depth crit false none
        (some (buildGo md th f arr (splitChildren f arr bbox depth).1.bbox (depth+1)
                 (splitChildren f arr bbox depth).1.criteria
                 (splitChildren f arr bbox depth).1.data,
               buildGo md th f arr (splitChildren f arr bbox depth).2.1.bbox (depth+1)
                 (splitChildren f arr bbox depth).2.1.criteria
                 (splitChildren f arr bbox depth).2.1.data,
               buildGo md th f arr (splitChildren f arr bbox depth).2.2.1.bbox (depth+1)
                 (splitChildren f arr bbox depth).2.2.1.criteria
                 (splitChildren f arr bbox depth).2.2.1.data,
               buildGo md th f arr (splitChildren f arr bbox depth).2.2.2.bbox (depth+1)
                 (splitChildren f arr bbox depth).2.2.2.criteria
                 (splitChildren f arr bbox depth).2.2.2.data)) := by
  have h' : ¬ (md ≤ depth ∨ crit.leR th = true) := by
    rcases Bool.or_eq_false_iff.mp h with ⟨h1, h2⟩
    rintro (hc | hc)
    · exact absurd (decide_eq_true hc) (by rw [h1]; exact Bool.false_ne_true)
    · exact absurd hc (by rw [h2]; exact Bool.false_ne_true)
  rw [buildGo]
  rw [dif_neg h']

end RegionQT

namespace RegionQT

/-- The 4x4 all-identical grid of the C5 scenario. -/
def gridUniform4 : Grid :=
  [[0, 0, 0, 0], [0, 0, 0, 0], [0, 0, 0, 0], [0, 0, 0, 0]]

/-- The 2-rows-1-column grid used to reach a zero-extent sub-block. -/
def gridTall : Grid := [[0], [10]]

end RegionQT

/-- C5 counterexample: a RegionTree built from a 4x4 all-identical grid with
variance statistic and threshold 1 does not consist of a single childless
leaf at depth 0 — its root carries children, because `__build` splits the
root unconditionally ("Ensure root is split") before the stop test. -/
theorem C5_uniform_grid_counterexample :
    (RegionQT.build RegionQT.gridUniform4 7 1 RegionQT.popVariance).children.isSome = true := by
  norm_num [RegionQT.gridUniform4, RegionQT.build, RegionQT.buildGo_stop,
    RegionQT.buildGo_rec, RegionQT.from_numpy, RegionQT.gridRows, RegionQT.gridCols,
    RegionQT.popVariance, RegionQT.RVal.leR, RegionQT.splitChildren, RegionQT.initNode,
    RegionQT.sliceGrid, RegionQT.idx, Geo.pyInt, Geo.BoundingBox.split,
    Geo.BoundingBox.mid_point, Geo.BoundingBox.to_int, RegionQT.RNode.children, Int.toNat_zero, Int.toNat_one,
    show Int.toNat 2 = 2 from rfl, show Int.toNat 4 = 4 from rfl]

/-- C5 amended: on the 4x4 all-identical grid with variance statistic and
threshold 1, the root has dispersion 0 ≤ 1 and is marked a leaf at depth 0
without further recursion, but it still carries four depth-1 children
created by the unconditional root split; each child is an undivided leaf
holding its 2x2 quadrant block.  The full constructed tree is exactly: -/
theorem C5_uniform_grid_amended :
    RegionQT.build RegionQT.gridUniform4 7 1 RegionQT.popVariance =
      RegionQT.RNode.mk ⟨0, 4, 0, 4⟩ 0 (RegionQT.RVal.val 0) true none
        (some (RegionQT.RNode.mk ⟨0, 2, 0, 2⟩ 1 (RegionQT.RVal.val 0) true
                 (some [[0, 0], [0, 0]]) none,
               RegionQT.RNode.mk ⟨2, 4, 0, 2⟩ 1 (RegionQT.RVal.val 0) true
                 (some [[0, 0], [0, 0]]) none,
               RegionQT.RNode.mk ⟨2, 4, 2, 4⟩ 1 (RegionQT.RVal.val 0) true
                 (some [[0, 0], [0, 0]]) none,
               RegionQT.RNode.mk ⟨0, 2, 2, 4⟩ 1 (RegionQT.RVal.val 0) true
                 (some [[0, 0], [0, 0]]) none)) := by
  norm_num [RegionQT.gridUniform4, RegionQT.build, RegionQT.buildGo_stop,
    RegionQT.buildGo_rec, RegionQT.from_numpy, RegionQT.gridRows, RegionQT.gridCols,
    RegionQT.popVariance, RegionQT.RVal.leR, RegionQT.splitChildren, RegionQT.initNode,
    RegionQT.sliceGrid, RegionQT.idx, Geo.pyInt, Geo.BoundingBox.split,
    Geo.BoundingBox.mid_point, Geo.BoundingBox.to_int, Int.toNat_zero, Int.toNat_one,
    show Int.toNat 2 = 2 from rfl, show Int.toNat 4 = 4 from rfl]

/-- C6 counterexample: building a RegionTree on the 2x1 grid [[0],[10]] with
variance statistic, threshold 1 and max depth 2 gives the root a NW child
addressing the box (0, 0, 0, 1), whose block is the zero-column slice
(one empty row, no samples): its dispersion IS computed over the empty
sample set (giving nan), and the node IS subdivided further (it has
children) because the Python comparison nan <= 1 is False — it is not made
a leaf as the claim requires. -/
theorem C6_zero_extent_counterexample :
    RegionQT.sliceGrid RegionQT.gridTall ⟨0, 0, 0, 1⟩ = [[]] ∧
    ((RegionQT.build RegionQT.gridTall 2 1 RegionQT.popVariance).nwChild).bbox
      = ⟨0, 0, 0, 1⟩ ∧
    ((RegionQT.build RegionQT.gridTall 2 1 RegionQT.popVariance).nwChild).criteria
      = RegionQT.RVal.nan ∧
    ((RegionQT.build RegionQT.gridTall 2 1 RegionQT.popVariance).nwChild).children.isSome
      = true := by
  refine ⟨?_, ?_, ?_, ?_⟩ <;>
  norm_num [RegionQT.gridTall, RegionQT.build, RegionQT.buildGo_stop,
    RegionQT.buildGo_rec, RegionQT.from_numpy, RegionQT.gridRows, RegionQT.gridCols,
    RegionQT.popVariance, RegionQT.RVal.leR, RegionQT.splitChildren, RegionQT.initNode,
    RegionQT.sliceGrid, RegionQT.idx, Geo.pyInt, Geo.BoundingBox.split,
    Geo.BoundingBox.mid_point, Geo.BoundingBox.to_int, RegionQT.RNode.children,
    RegionQT.RNode.bbox, RegionQT.RNode.criteria, RegionQT.RNode.nwChild, Int.toNat_zero, Int.toNat_one,
    show Int.toNat 2 = 2 from rfl, show Int.toNat 4 = 4 from rfl]

/-- C6 amended: under a numpy-style statistic (nan on an empty sample list,
here the population variance), a node whose block has no samples (zero rows
or zero columns) and whose depth is below max_depth is NOT made a leaf: its
dispersion is the nan computed over the empty sample set, the stop test
`nan <= threshold` is False, and the node subdivides. -/
theorem C6_zero_extent_subdivides (md : ℕ) (th : ℚ) (arr : RegionQT.Grid)
    (bbox : Geo.BoundingBox) (depth : ℕ) (blockData : Option RegionQT.Grid)
    (hempty : (RegionQT.sliceGrid arr bbox).flatten = [])
    (hdepth : depth < md) :
    (RegionQT.buildGo md th RegionQT.popVariance arr bbox depth
      (RegionQT.popVariance (RegionQT.sliceGrid arr bbox).flatten)
      blockData).children.isSome = true := by
  rw [hempty]
  have hnan : RegionQT.popVariance [] = RegionQT.RVal.nan := by
    simp [RegionQT.popVariance]
  rw [hnan]
  rw [RegionQT.buildGo_rec]
  · rfl
  · simp [RegionQT.RVal.leR, decide_eq_false (not_le.mpr hdepth)]

/-- Witness for the amended C6 at the concrete zero-extent NW slice of the
2x1 grid, depth 1, max depth 2. -/
theorem C6_zero_extent_subdivides_witness :
    (RegionQT.buildGo 2 1 RegionQT.popVariance RegionQT.gridTall ⟨0, 0, 0, 1⟩ 1
      (RegionQT.popVariance (RegionQT.sliceGrid RegionQT.gridTall
        ⟨0, 0, 0, 1⟩).flatten) (some [[]])).children.isSome = true :=
  C6_zero_extent_subdivides 2 1 RegionQT.gridTall ⟨0, 0, 0, 1⟩ 1 (some [[]])
    (by norm_num [RegionQT.gridTall, RegionQT.sliceGrid, RegionQT.idx, Geo.pyInt])
    (by norm_num)

namespace RegionQT

/-- Floor of the rational midpoint of two naturals is their natural
half-sum: the truncation `to_int` applies to a quadrant midpoint. -/
theorem floor_half_nat (a b : ℕ) : ⌊(((a : ℚ) + b) / 2 : ℚ)⌋ = ((a + b) / 2 : ℕ) := by
  rw [show ((a : ℚ) + b) = ((a + b : ℕ) : ℚ) by push_cast; ring]
  rw [show (2 : ℚ) = ((2 : ℕ) : ℚ) by norm_num]
  rw [Rat.floor_natCast_div_natCast]
  omega

/-- Slice index of a natural-valued coordinate. -/
theorem idx_natCast (k : ℕ) : idx (k : ℚ) = k := by
  simp [idx, Geo.pyInt]

end RegionQT

/-- C7: one region decomposition step on a box with natural bounds and at
least one row and one column of indices splits the addressed block exactly:
the four sub-blocks obtained by slicing the array with the truncated
(`to_int`) quadrant boxes, reassembled by position (NW beside NE on top, SW
beside SE below), reconstruct the parent slice, so no sample is duplicated
or dropped. -/
theorem C7_slice_reconstruction (arr : RegionQT.Grid) (lx rx ty byv : ℕ)
    (h1 : lx < rx) (h2 : ty < byv) :
    List.zipWith (· ++ ·)
      (RegionQT.sliceGrid arr ((Geo.BoundingBox.mk lx rx ty byv).split.nw.to_int))
      (RegionQT.sliceGrid arr ((Geo.BoundingBox.mk lx rx ty byv).split.ne.to_int)) ++
    List.zipWith (· ++ ·)
      (RegionQT.sliceGrid arr ((Geo.BoundingBox.mk lx rx ty byv).split.sw.to_int))
      (RegionQT.sliceGrid arr ((Geo.BoundingBox.mk lx rx ty byv).split.se.to_int))
      = RegionQT.sliceGrid arr (Geo.BoundingBox.mk lx rx ty byv) := by
  have hsl : ∀ a b c d : ℕ, RegionQT.sliceGrid arr (Geo.BoundingBox.mk a b c d)
      = ((arr.drop c).take (d - c)).map (fun row => (row.drop a).take (b - a)) := by
    intro a b c d
    simp [RegionQT.sliceGrid, RegionQT.idx_natCast]
  have hnw : (Geo.BoundingBox.mk (lx : ℚ) rx ty byv).split.nw.to_int
      = Geo.BoundingBox.mk (lx : ℕ) ((rx + lx) / 2 : ℕ) (ty : ℕ) ((ty + byv) / 2 : ℕ) := by
    simp [Geo.BoundingBox.split, Geo.BoundingBox.mid_point, Geo.BoundingBox.to_int,
      Geo.pyInt, RegionQT.floor_half_nat]
    constructor
    · rw [show ((rx : ℤ) + lx) / 2 = (((rx + lx) / 2 : ℕ) : ℤ) by omega, Int.cast_natCast]
    · rw [show ((ty : ℤ) + byv) / 2 = (((ty + byv) / 2 : ℕ) : ℤ) by omega, Int.cast_natCast]
  have hne : (Geo.BoundingBox.mk (lx : ℚ) rx ty byv).split.ne.to_int
      = Geo.BoundingBox.mk ((rx + lx) / 2 : ℕ) (rx : ℕ) (ty : ℕ) ((ty + byv) / 2 : ℕ) := by
    simp [Geo.BoundingBox.split, Geo.BoundingBox.mid_point, Geo.BoundingBox.to_int,
      Geo.pyInt, RegionQT.floor_half_nat]
    constructor
    · rw [show ((rx : ℤ) + lx) / 2 = (((rx + lx) / 2 : ℕ) : ℤ) by omega, Int.cast_natCast]
    · rw [show ((ty : ℤ) + byv) / 2 = (((ty + byv) / 2 : ℕ) : ℤ) by omega, Int.cast_natCast]
  have hse : (Geo.BoundingBox.mk (lx : ℚ) rx ty byv).split.se.to_int
      = Geo.BoundingBox.mk ((rx + lx) / 2 : ℕ) (rx : ℕ) ((ty + byv) / 2 : ℕ) (byv : ℕ) := by
    simp [Geo.BoundingBox.split, Geo.BoundingBox.mid_point, Geo.BoundingBox.to_int,
      Geo.pyInt, RegionQT.floor_half_nat]
    constructor
    · rw [show ((rx : ℤ) + lx) / 2 = (((rx + lx) / 2 : ℕ) : ℤ) by omega, Int.cast_natCast]
    · rw [show ((ty : ℤ) + byv) / 2 = (((ty + byv) / 2 : ℕ) : ℤ) by omega, Int.cast_natCast]
  have hsw : (Geo.BoundingBox.mk (lx : ℚ) rx ty byv).split.sw.to_int
      = Geo.BoundingBox.mk (lx : ℕ) ((rx + lx) / 2 : ℕ) ((ty + byv) / 2 : ℕ) (byv : ℕ) := by
    simp [Geo.BoundingBox.split, Geo.BoundingBox.mid_point, Geo.BoundingBox.to_int,
      Geo.pyInt, RegionQT.floor_half_nat]
    constructor
    · rw [show ((rx : ℤ) + lx) / 2 = (((rx + lx) / 2 : ℕ) : ℤ) by omega, Int.cast_natCast]
    · rw [show ((ty : ℤ) + byv) / 2 = (((ty + byv) / 2 : ℕ) : ℤ) by omega, Int.cast_natCast]
  rw [hnw, hne, hse, hsw, hsl, hsl, hsl, hsl, hsl]
  have hcols : ∀ row : List ℚ, (row.drop lx).take (rx - lx)
      = (row.drop lx).take ((rx + lx) / 2 - lx) ++
        (row.drop ((rx + lx) / 2)).take (rx - (rx + lx) / 2) := by
    intro row
    rw [show rx - lx = ((rx + lx) / 2 - lx) + (rx - (rx + lx) / 2) by omega,
        List.take_add, List.drop_drop,
        show lx + ((rx + lx) / 2 - lx) = (rx + lx) / 2 by omega]
  have hrows : (arr.drop ty).take (byv - ty)
      = (arr.drop ty).take ((ty + byv) / 2 - ty) ++
        (arr.drop ((ty + byv) / 2)).take (byv - (ty + byv) / 2) := by
    rw [show byv - ty = ((ty + byv) / 2 - ty) + (byv - (ty + byv) / 2) by omega,
        List.take_add, List.drop_drop,
        show ty + ((ty + byv) / 2 - ty) = (ty + byv) / 2 by omega]
  rw [hrows, List.map_append]
  congr 1 <;>
  · rw [List.zipWith_map, List.zipWith_same]
    exact List.map_congr_left fun row _ => (hcols row).symm

/-- Witness for C7 on the 3x3 grid of 1..9 with the box (0, 3, 0, 3). -/
theorem C7_slice_reconstruction_witness :
    List.zipWith (· ++ ·)
      (RegionQT.sliceGrid [[1, 2, 3], [4, 5, 6], [7, 8, 9]]
        ((Geo.BoundingBox.mk ((0 : ℕ) : ℚ) ((3 : ℕ) : ℚ) ((0 : ℕ) : ℚ)
          ((3 : ℕ) : ℚ)).split.nw.to_int))
      (RegionQT.sliceGrid [[1, 2, 3], [4, 5, 6], [7, 8, 9]]
        ((Geo.BoundingBox.mk ((0 : ℕ) : ℚ) ((3 : ℕ) : ℚ) ((0 : ℕ) : ℚ)
          ((3 : ℕ) : ℚ)).split.ne.to_int)) ++
    List.zipWith (· ++ ·)
      (RegionQT.sliceGrid [[1, 2, 3], [4, 5, 6], [7, 8, 9]]
        ((Geo.BoundingBox.mk ((0 : ℕ) : ℚ) ((3 : ℕ) : ℚ) ((0 : ℕ) : ℚ)
          ((3 : ℕ) : ℚ)).split.sw.to_int))
      (RegionQT.sliceGrid [[1, 2, 3], [4, 5, 6], [7, 8, 9]]
        ((Geo.BoundingBox.mk ((0 : ℕ) : ℚ) ((3 : ℕ) : ℚ) ((0 : ℕ) : ℚ)
          ((3 : ℕ) : ℚ)).split.se.to_int))
      = RegionQT.sliceGrid [[1, 2, 3], [4, 5, 6], [7, 8, 9]]
          (Geo.BoundingBox.mk ((0 : ℕ) : ℚ) ((3 : ℕ) : ℚ) ((0 : ℕ) : ℚ) ((3 : ℕ) : ℚ)) :=
  C7_slice_reconstruction [[1, 2, 3], [4, 5, 6], [7, 8, 9]] 0 3 0 3
    (by norm_num) (by norm_num)
